import Mathlib

/-!
Shallow embedding of the spright 2D sprite batch renderer (`src/lib.rs`).

Modelling conventions:

* `f32` quantities (positions, texture coordinates, tints, uniform float
  fields) are modelled as `Rat`; the claims under study are about which
  values are combined and where they are placed, not about rounding.
* Machine-integer casts are explicit: `as u32` is `% U32` on `Nat`.
* wgpu handles are modelled by the data the renderer reads from them:
  a `Texture` is its `global_id`, extent and format; a `Buffer` is its
  size and usage flags; a bind group entry pointing at a buffer slice is
  recorded as the slice's offset and size.
* Byte serialization of `f32` fields (crevice `as_std140().as_bytes()`)
  is modelled by the opaque byte constructor `PByte.f32part x i` (the
  `i`-th byte of the IEEE-754 encoding of `x`); integer fields serialize
  to concrete little-endian bytes `PByte.raw`.
* Panics (`unwrap`) are modelled by `Option`: `none` is a panic.
* The `target_uniforms` write and the shader/pipeline/sampler objects
  created in `Renderer::new` are opaque to every claim under study and
  are not carried in the model.
-/

/-- Two to the 32nd power; `as u32` casts in the source reduce modulo this. -/
def U32 : Nat := 4294967296

/-- The subset of `wgpu::TextureFormat` relevant to the renderer: the one
format the code singles out (`R8Unorm`), another single-channel format
(`R32Float`), and two four-channel formats. -/
inductive TextureFormat where
  | R8Unorm
  | R32Float
  | Rgba8Unorm
  | Bgra8Unorm
deriving DecidableEq

/-- A `wgpu::Texture` handle as the renderer observes it: its `global_id`
(the identity used for grouping), its extent and its pixel format. -/
structure Texture where
  id : Nat
  width : Nat
  height : Nat
  format : TextureFormat
deriving DecidableEq

/-- `Rect` from `src/lib.rs`: integer offset plus unsigned size. -/
structure Rect where
  offset : Int × Int
  size : Nat × Nat
deriving DecidableEq

/-- `Rect::left`. -/
def Rect.left (r : Rect) : Int := r.offset.1

/-- `Rect::top`. -/
def Rect.top (r : Rect) : Int := r.offset.2

/-- `Rect::right`. -/
def Rect.right (r : Rect) : Int := r.offset.1 + (r.size.1 : Int)

/-- `Rect::bottom`. -/
def Rect.bottom (r : Rect) : Int := r.offset.2 + (r.size.2 : Int)

/-- `glam::Affine2`: a 2x2 column-major matrix plus a translation. -/
structure Affine2 where
  xAxis : Rat × Rat
  yAxis : Rat × Rat
  translation : Rat × Rat
deriving DecidableEq

/-- `Affine2::transform_point2`: `matrix2 * p + translation`. -/
def Affine2.transformPoint2 (a : Affine2) (p : Rat × Rat) : Rat × Rat :=
  (a.xAxis.1 * p.1 + a.yAxis.1 * p.2 + a.translation.1,
   a.xAxis.2 * p.1 + a.yAxis.2 * p.2 + a.translation.2)

/-- `Color = rgb::RGBA8`: four 8-bit channels. -/
structure Color where
  r : Nat
  g : Nat
  b : Nat
  a : Nat
deriving DecidableEq

/-- `Sprite` from `src/lib.rs`. -/
structure Sprite where
  texture : Texture
  src : Rect
  transform : Affine2
  tint : Color
deriving DecidableEq

/-- `Vertex` from `src/lib.rs`: position, texture coordinates, tint. -/
structure Vertex where
  position : Rat × Rat × Rat
  tex_coords : Rat × Rat
  tint : Rat × Rat × Rat × Rat
deriving DecidableEq

/-- A byte of the packed uniform data: either a concrete byte value or an
opaque byte of the IEEE-754 encoding of an `f32`. -/
inductive PByte where
  | raw (value : Nat)
  | f32part (value : Rat) (byteIndex : Fin 4)
deriving DecidableEq

/-- The four bytes of an `f32` field in a std140 record. -/
def f32le (x : Rat) : List PByte :=
  [PByte.f32part x 0, PByte.f32part x 1, PByte.f32part x 2, PByte.f32part x 3]

/-- The four little-endian bytes of a `u32` field in a std140 record. -/
def u32le (n : Nat) : List PByte :=
  [PByte.raw (n % 256), PByte.raw (n / 256 % 256),
   PByte.raw (n / 65536 % 256), PByte.raw (n / 16777216 % 256)]

/-- `TextureUniforms` from `src/lib.rs`: texture size plus mask flag. -/
structure TextureUniforms where
  size : Rat × Rat × Rat
  is_mask : Nat
deriving DecidableEq

/-- `TextureUniforms::as_std140().as_bytes()`: std140 lays out the `Vec3`
at offset 0 (12 bytes) and the `u32` at offset 12, total size 16. -/
def asStd140Bytes (u : TextureUniforms) : List PByte :=
  f32le u.size.1 ++ f32le u.size.2.1 ++ f32le u.size.2.2 ++ u32le u.is_mask

/-- The `TextureUniforms` value `Renderer::prepare` builds for a group's
texture: float width/height with `z = 0`, and `is_mask` set to 1 exactly
when the format equals `wgpu::TextureFormat::R8Unorm`. -/
def mkTextureUniforms (t : Texture) : TextureUniforms :=
  { size := ((t.width : Rat), (t.height : Rat), 0),
    is_mask := if t.format = TextureFormat.R8Unorm then 1 else 0 }

/-- `bytes.chain(repeat(0)).take(align)` from the uniform packing loop:
pad with zero bytes, or truncate, to exactly `align` bytes. -/
def padTo (align : Nat) (bytes : List PByte) : List PByte :=
  (bytes ++ List.replicate align (PByte.raw 0)).take align

/-- itertools `chunk_by` as used in `Renderer::prepare`: split a list into
maximal runs of consecutive elements whose keys are equal. -/
def chunkByKey {α : Type} (key : α → Nat) : List α → List (List α)
  | [] => []
  | [a] => [[a]]
  | a :: b :: rest =>
    match chunkByKey key (b :: rest) with
    | [] => [[a]]
    | g :: gs => if key a = key b then (a :: g) :: gs else [a] :: g :: gs

/-- The usage flags of the three buffers the renderer owns. -/
inductive BufferUsage where
  | uniformCopyDst
  | vertexCopyDst
  | indexCopyDst
deriving DecidableEq

/-- A `wgpu::Buffer` as the renderer observes it: byte size and usage. -/
structure Buffer where
  size : Nat
  usage : BufferUsage
deriving DecidableEq

/-- `ensure_buffer_size` from `src/lib.rs`: keep the buffer when it is
already large enough, otherwise allocate a fresh buffer of exactly the
required size with the same usage flags. -/
def ensure_buffer_size (buffer : Buffer) (size : Nat) : Buffer :=
  if size ≤ buffer.size then buffer
  else { size := size, usage := buffer.usage }

/-- The device limit `Renderer::prepare` reads. -/
structure DeviceLimits where
  min_uniform_buffer_offset_alignment : Nat
deriving DecidableEq

/-- `PreparedGroup` from `src/lib.rs`. Its `texture_bind_group` is modelled
by the data it binds: the group's texture and the uniform-buffer slice
(offset and size) handed to `BufferBinding`. -/
structure PreparedGroup where
  texture : Texture
  uniformOffset : Nat
  uniformSize : Nat
  index_buffer_start : Nat
  index_buffer_end : Nat
deriving DecidableEq

/-- The renderer state the claims observe: the three growable buffers and
the current prepared groups. -/
structure Renderer where
  texture_uniforms_buffer : Buffer
  vertex_buffer : Buffer
  index_buffer : Buffer
  prepared_groups : List PreparedGroup
deriving DecidableEq

/-- `size_of::<Vertex>()`: 3 + 2 + 4 floats of 4 bytes. -/
def VERTEX_SIZE : Nat := 36

/-- `size_of::<Std140TextureUniforms>()`: 12-byte Vec3 plus 4-byte u32. -/
def STD140_TEXTURE_UNIFORMS_SIZE : Nat := 16

/-- `Renderer::new`: builds the initial buffers. It reads nothing from the
device limits (in particular it never checks the uniform alignment) and
always returns a complete renderer. -/
def Renderer.new (_device : DeviceLimits) : Renderer :=
  { texture_uniforms_buffer :=
      { size := STD140_TEXTURE_UNIFORMS_SIZE, usage := BufferUsage.uniformCopyDst },
    vertex_buffer := { size := VERTEX_SIZE * 1024, usage := BufferUsage.vertexCopyDst },
    index_buffer := { size := 4 * 1024, usage := BufferUsage.indexCopyDst },
    prepared_groups := [] }

/-- The normalized tint `[r/255, g/255, b/255, a/255]`. -/
def normTint (c : Color) : Rat × Rat × Rat × Rat :=
  ((c.r : Rat) / 255, (c.g : Rat) / 255, (c.b : Rat) / 255, (c.a : Rat) / 255)

/-- The four vertices `Renderer::prepare` emits for one sprite, in source
order: transform applied to `(0,0)`, `(0,h)`, `(w,0)`, `(w,h)` extended
with `z = 0`, texture coordinates from the source rect corners, and the
normalized tint replicated. -/
def quadVertices (s : Sprite) : List Vertex :=
  let tint := normTint s.tint
  [ { position := ((s.transform.transformPoint2 (0, 0)).1,
                   (s.transform.transformPoint2 (0, 0)).2, 0),
      tex_coords := ((s.src.left : Rat), (s.src.top : Rat)),
      tint := tint },
    { position := ((s.transform.transformPoint2 (0, (s.src.size.2 : Rat))).1,
                   (s.transform.transformPoint2 (0, (s.src.size.2 : Rat))).2, 0),
      tex_coords := ((s.src.left : Rat), (s.src.bottom : Rat)),
      tint := tint },
    { position := ((s.transform.transformPoint2 ((s.src.size.1 : Rat), 0)).1,
                   (s.transform.transformPoint2 ((s.src.size.1 : Rat), 0)).2, 0),
      tex_coords := ((s.src.right : Rat), (s.src.top : Rat)),
      tint := tint },
    { position := ((s.transform.transformPoint2 ((s.src.size.1 : Rat), (s.src.size.2 : Rat))).1,
                   (s.transform.transformPoint2 ((s.src.size.1 : Rat), (s.src.size.2 : Rat))).2, 0),
      tex_coords := ((s.src.right : Rat), (s.src.bottom : Rat)),
      tint := tint } ]

/-- The six indices `Renderer::prepare` emits for one sprite:
`[0,1,2,1,2,3]` each added (in `u32` arithmetic) to
`offset = vertices.len() as u32`, where `vlen` is the vertex count. -/
def quadIndices (vlen : Nat) : List Nat :=
  [0, 1, 2, 1, 2, 3].map (fun v => (v + vlen % U32) % U32)

/-- The inner sprite loop of `Renderer::prepare`: extend the running
vertex and index vectors with one quad per sprite. -/
def synthFold (acc : List Vertex × List Nat) (sprites : List Sprite) :
    List Vertex × List Nat :=
  sprites.foldl (fun acc s => (acc.1 ++ quadVertices s, acc.2 ++ quadIndices acc.1.length)) acc

/-- One iteration of the group loop in `Renderer::prepare`: record the
index range, synthesize the group's quads and build its bind group.
`none` models the `unwrap` panics (`first()` on an empty group,
`NonZero::new(0)` when the alignment is zero). -/
def synthGroup (align : Nat) (i : Nat) (vertices : List Vertex) (indices : List Nat)
    (g : List Sprite) : Option (List Vertex × List Nat × PreparedGroup) :=
  match g.head? with
  | none => none
  | some first =>
    if align = 0 then none
    else
      let start := indices.length % U32
      let p := synthFold (vertices, indices) g
      some (p.1, p.2,
        { texture := first.texture,
          uniformOffset := i * align,
          uniformSize := align,
          index_buffer_start := start,
          index_buffer_end := p.2.length % U32 })

/-- The group loop of `Renderer::prepare`, threading the running vertex
and index vectors and the group counter `i`. -/
def synthGroups (align : Nat) (i : Nat) (vertices : List Vertex) (indices : List Nat) :
    List (List Sprite) → Option (List Vertex × List Nat × List PreparedGroup)
  | [] => some (vertices, indices, [])
  | g :: gs =>
    match synthGroup align i vertices indices g with
    | none => none
    | some (vs, ixs, pg) =>
      match synthGroups align (i + 1) vs ixs gs with
      | none => none
      | some (vs', ixs', pgs) => some (vs', ixs', pg :: pgs)

/-- The uniform packing loop of `Renderer::prepare`: for each group, the
std140 bytes of its first sprite's texture uniforms, zero-padded or
truncated to the alignment stride. -/
def packUniforms (align : Nat) : List (List Sprite) → Option (List PByte)
  | [] => some []
  | g :: gs =>
    match g.head? with
    | none => none
    | some first =>
      match packUniforms align gs with
      | none => none
      | some rest =>
        some (padTo align (asStd140Bytes (mkTextureUniforms first.texture)) ++ rest)

/-- Everything `Renderer::prepare` computes: the updated renderer state
plus the data uploaded to the three buffers. -/
structure PrepareResult where
  renderer : Renderer
  texture_uniforms : List PByte
  vertices : List Vertex
  indices : List Nat
deriving DecidableEq

/-- `Renderer::prepare`: group the sprites by texture identity, pack the
per-group uniforms, synthesize vertices/indices and the prepared groups,
and grow the buffers to fit the uploaded data. -/
def Renderer.prepare (r : Renderer) (device : DeviceLimits) (sprites : List Sprite) :
    Option PrepareResult :=
  let align := device.min_uniform_buffer_offset_alignment
  let grouped := chunkByKey (fun s => s.texture.id) sprites
  match packUniforms align grouped with
  | none => none
  | some texture_uniforms =>
    match synthGroups align 0 [] [] grouped with
    | none => none
    | some (vertices, indices, pgroups) =>
      some { renderer :=
               { texture_uniforms_buffer :=
                   ensure_buffer_size r.texture_uniforms_buffer texture_uniforms.length,
                 vertex_buffer :=
                   ensure_buffer_size r.vertex_buffer (vertices.length * VERTEX_SIZE),
                 index_buffer := ensure_buffer_size r.index_buffer (indices.length * 4),
                 prepared_groups := pgroups },
             texture_uniforms := texture_uniforms,
             vertices := vertices,
             indices := indices }

/-- `Renderer::render`: one `draw_indexed` call per prepared group, over
its recorded index range, in order. -/
def Renderer.render (r : Renderer) : List (Nat × Nat) :=
  r.prepared_groups.map (fun g => (g.index_buffer_start, g.index_buffer_end))

/-- Modelled from the spec: "is-mask flag (1 if the texture's pixel format
is single-channel, else 0)". Among the modelled formats, `R8Unorm` and
`R32Float` are the single-channel (red-only) ones. Used only to compare
the spec's wording against the code's `R8Unorm` test. -/
def specSingleChannel : TextureFormat → Bool
  | TextureFormat.R8Unorm => true
  | TextureFormat.R32Float => true
  | TextureFormat.Rgba8Unorm => false
  | TextureFormat.Bgra8Unorm => false

/-- The statement "the ranges `rs`, concatenated in order, cover exactly
`[a, b)` with no gaps and no overlaps": each range starts where the
previous one ended, beginning at `a` and finishing at `b`. -/
def chainFrom : Nat → List (Nat × Nat) → Nat → Prop
  | a, [], b => a = b
  | a, r :: rs, b => r.1 = a ∧ chainFrom r.2 rs b

instance instDecChainFrom : ∀ (a : Nat) (rs : List (Nat × Nat)) (b : Nat),
    Decidable (chainFrom a rs b)
  | _, [], _ => inferInstanceAs (Decidable (_ = _))
  | _, r :: rs, b =>
    have : Decidable (chainFrom r.2 rs b) := instDecChainFrom r.2 rs b
    inferInstanceAs (Decidable (_ ∧ _))

/-- Fixture: a four-channel texture with identity 0. -/
def texA : Texture := { id := 0, width := 64, height := 64, format := TextureFormat.Rgba8Unorm }

/-- Fixture: a four-channel texture with identity 1. -/
def texB : Texture := { id := 1, width := 32, height := 32, format := TextureFormat.Bgra8Unorm }

/-- Fixture: an `R8Unorm` (mask) texture with identity 2. -/
def texMask : Texture := { id := 2, width := 16, height := 16, format := TextureFormat.R8Unorm }

/-- Fixture: a single-channel `R32Float` texture with identity 3. -/
def texR32 : Texture := { id := 3, width := 8, height := 8, format := TextureFormat.R32Float }

/-- Fixture: the identity affine transform. -/
def identityAffine : Affine2 := { xAxis := (1, 0), yAxis := (0, 1), translation := (0, 0) }

/-- Fixture: a sprite on the given texture with the spec's example source
rect `{x:0, y:0, w:10, h:20}`, identity transform and opaque white tint. -/
def mkSprite (t : Texture) : Sprite :=
  { texture := t,
    src := { offset := (0, 0), size := (10, 20) },
    transform := identityAffine,
    tint := { r := 255, g := 255, b := 255, a := 255 } }

/-- Fixture: device limits reporting a zero uniform alignment. -/
def dev0 : DeviceLimits := { min_uniform_buffer_offset_alignment := 0 }

/-- Fixture: device limits with uniform alignment 8 (below the struct size). -/
def dev8 : DeviceLimits := { min_uniform_buffer_offset_alignment := 8 }

/-- Fixture: device limits with uniform alignment 32. -/
def dev32 : DeviceLimits := { min_uniform_buffer_offset_alignment := 32 }

/-- Fixture: device limits with the common uniform alignment 256. -/
def dev256 : DeviceLimits := { min_uniform_buffer_offset_alignment := 256 }

/-! ### Lemmas about `chunkByKey` -/

theorem chunkByKey_cons {α : Type} (key : α → Nat) (b : α) (l : List α) :
    ∃ t gs, chunkByKey key (b :: l) = (b :: t) :: gs := by
  induction l generalizing b with
  | nil => exact ⟨[], [], rfl⟩
  | cons c l ih =>
    obtain ⟨t, gs, h⟩ := ih c
    by_cases hk : key b = key c
    · exact ⟨c :: t, gs, by simp [chunkByKey, h, hk]⟩
    · exact ⟨[], (c :: t) :: gs, by simp [chunkByKey, h, hk]⟩

theorem chunkByKey_cons_cons {α : Type} (key : α → Nat) (a b : α) (l : List α)
    {t : List α} {gs : List (List α)} (h : chunkByKey key (b :: l) = (b :: t) :: gs) :
    chunkByKey key (a :: b :: l) =
      if key a = key b then (a :: b :: t) :: gs else [a] :: (b :: t) :: gs := by
  by_cases hk : key a = key b <;> simp [chunkByKey, h, hk]

theorem chunkByKey_flatten {α : Type} (key : α → Nat) (l : List α) :
    (chunkByKey key l).flatten = l := by
  induction l with
  | nil => rfl
  | cons a l ih =>
    cases l with
    | nil => rfl
    | cons b l =>
      obtain ⟨t, gs, h⟩ := chunkByKey_cons key b l
      rw [h] at ih
      rw [chunkByKey_cons_cons key a b l h]
      by_cases hk : key a = key b <;> simp [hk] <;> simpa using ih

theorem chunkByKey_mem {α : Type} (key : α → Nat) (l : List α) :
    ∀ g ∈ chunkByKey key l, ∃ c, g ≠ [] ∧ ∀ x ∈ g, key x = c := by
  induction l with
  | nil => intro g hg; simp [chunkByKey] at hg
  | cons a l ih =>
    cases l with
    | nil =>
      intro g hg
      simp only [chunkByKey, List.mem_singleton] at hg
      subst hg
      exact ⟨key a, by simp, by simp⟩
    | cons b l =>
      obtain ⟨t, gs, h⟩ := chunkByKey_cons key b l
      rw [h] at ih
      rw [chunkByKey_cons_cons key a b l h]
      by_cases hk : key a = key b
      · rw [if_pos hk]
        intro g hg
        rcases List.mem_cons.mp hg with rfl | hg'
        · obtain ⟨c, _, hc⟩ := ih (b :: t) (List.mem_cons_self _ _)
          have hbc : key b = c := hc b (List.mem_cons_self _ _)
          refine ⟨c, by simp, ?_⟩
          intro x hx
          rcases List.mem_cons.mp hx with rfl | hx'
          · exact hk.trans hbc
          · exact hc x hx'
        · exact ih g (List.mem_cons_of_mem _ hg')
      · rw [if_neg hk]
        intro g hg
        rcases List.mem_cons.mp hg with rfl | hg'
        · exact ⟨key a, by simp, by simp⟩
        · exact ih g hg'

theorem chunkByKey_ne_nil {α : Type} (key : α → Nat) (l : List α) :
    ∀ g ∈ chunkByKey key l, g ≠ [] := by
  intro g hg
  obtain ⟨c, hne, _⟩ := chunkByKey_mem key l g hg
  exact hne

theorem chunkByKey_chain {α : Type} (key : α → Nat) (l : List α) :
    List.Chain' (fun g h => ∀ x ∈ g, ∀ y ∈ h, key x ≠ key y) (chunkByKey key l) := by
  induction l with
  | nil => simp [chunkByKey]
  | cons a l ih =>
    cases l with
    | nil => simp [chunkByKey]
    | cons b l =>
      obtain ⟨t, gs, h⟩ := chunkByKey_cons key b l
      have hmem := chunkByKey_mem key (b :: l)
      rw [h] at ih hmem
      rw [chunkByKey_cons_cons key a b l h]
      obtain ⟨c, _, hc⟩ := hmem (b :: t) (List.mem_cons_self _ _)
      have hbc : key b = c := hc b (List.mem_cons_self _ _)
      by_cases hk : key a = key b
      · rw [if_pos hk]
        cases gs with
        | nil => simp
        | cons g' gs' =>
          rw [List.chain'_cons] at ih ⊢
          refine ⟨?_, ih.2⟩
          intro x hx y hy
          have hxc : key x = c := by
            rcases List.mem_cons.mp hx with rfl | hx'
            · exact hk.trans hbc
            · exact hc x hx'
          have := ih.1 b (List.mem_cons_self _ _) y hy
          rw [hbc] at this
          rw [hxc]
          exact this
      · rw [if_neg hk]
        rw [List.chain'_cons]
        refine ⟨?_, ih⟩
        intro x hx y hy
        rcases List.mem_singleton.mp hx with rfl
        have : key y = c := hc y hy
        rw [this, ← hbc]
        exact fun hxy => hk hxy
  
theorem chunkByKey_const {α : Type} (key : α → Nat) (c : Nat) (l : List α)
    (hl : l ≠ []) (h : ∀ x ∈ l, key x = c) : chunkByKey key l = [l] := by
  induction l with
  | nil => exact absurd rfl hl
  | cons a l ih =>
    cases l with
    | nil => rfl
    | cons b l =>
      have hbl : chunkByKey key (b :: l) = [b :: l] :=
        ih (by simp) (fun x hx => h x (List.mem_cons_of_mem _ hx))
      rw [chunkByKey_cons_cons key a b l hbl]
      rw [if_pos (by rw [h a (List.mem_cons_self _ _), h b (List.mem_cons_of_mem _ (List.mem_cons_self _ _))])]

/-! ### Lemmas about the vertex/index synthesis -/

theorem quadVertices_length (s : Sprite) : (quadVertices s).length = 4 := rfl

theorem quadIndices_length (n : Nat) : (quadIndices n).length = 6 := rfl

theorem synthFold_nil (acc : List Vertex × List Nat) : synthFold acc [] = acc := rfl

theorem synthFold_cons (acc : List Vertex × List Nat) (s : Sprite) (l : List Sprite) :
    synthFold acc (s :: l) =
      synthFold (acc.1 ++ quadVertices s, acc.2 ++ quadIndices acc.1.length) l := rfl

theorem synthFold_append (acc : List Vertex × List Nat) (l₁ l₂ : List Sprite) :
    synthFold acc (l₁ ++ l₂) = synthFold (synthFold acc l₁) l₂ := by
  simp [synthFold, List.foldl_append]

theorem synthFold_fst (l : List Sprite) : ∀ vs : List Vertex, ∀ ixs : List Nat,
    (synthFold (vs, ixs) l).1 = vs ++ (l.map quadVertices).flatten := by
  induction l with
  | nil => intro vs ixs; simp [synthFold]
  | cons s l ih =>
    intro vs ixs
    rw [synthFold_cons, ih]
    simp

theorem synthFold_snd (l : List Sprite) : ∀ vs : List Vertex, ∀ ixs : List Nat,
    (synthFold (vs, ixs) l).2 =
      ixs ++ ((List.range l.length).map (fun j => quadIndices (vs.length + 4 * j))).flatten := by
  induction l with
  | nil => intro vs ixs; simp [synthFold]
  | cons s l ih =>
    intro vs ixs
    rw [synthFold_cons, ih]
    simp only [List.length_cons, List.range_succ_eq_map, List.map_cons, List.map_map,
      List.flatten_cons, List.length_append, quadVertices_length]
    rw [List.append_assoc]
    have harg : ∀ j ∈ List.range l.length,
        (fun j => quadIndices (vs.length + 4 * j)) (Nat.succ j) =
          (fun j => quadIndices (vs.length + 4 + 4 * j)) j := by
      intro j _
      show quadIndices (vs.length + 4 * Nat.succ j) = quadIndices (vs.length + 4 + 4 * j)
      congr 1
      omega
    rw [show (fun j => quadIndices (vs.length + 4 * j)) ∘ Nat.succ =
        fun j => quadIndices (vs.length + 4 * Nat.succ j) from rfl]
    rw [List.map_congr_left harg]
    congr 2

theorem synthFold_fst_length (l : List Sprite) (vs : List Vertex) (ixs : List Nat) :
    (synthFold (vs, ixs) l).1.length = vs.length + 4 * l.length := by
  induction l generalizing vs ixs with
  | nil => simp [synthFold]
  | cons s l ih =>
    rw [synthFold_cons]
    simp only [ih]
    simp [quadVertices_length]
    omega

theorem synthFold_snd_length (l : List Sprite) (vs : List Vertex) (ixs : List Nat) :
    (synthFold (vs, ixs) l).2.length = ixs.length + 6 * l.length := by
  induction l generalizing vs ixs with
  | nil => simp [synthFold]
  | cons s l ih =>
    rw [synthFold_cons]
    simp only [ih]
    simp [quadIndices_length]
    omega

/-! ### Extracting fixed-size blocks from a flattened list -/

theorem flatten_blocks_get {α : Type} (k : Nat) :
    ∀ (L : List (List α)) (j : Nat), (∀ b ∈ L, b.length = k) → (hj : j < L.length) →
      (L.flatten.drop (k * j)).take k = L[j] := by
  intro L
  induction L with
  | nil => intro j _ hj; simp at hj
  | cons b L ih =>
    intro j hk hj
    have hb : b.length = k := hk b (List.mem_cons_self _ _)
    cases j with
    | zero =>
      simp only [Nat.mul_zero, List.drop_zero, List.flatten_cons, List.getElem_cons_zero]
      rw [← hb, List.take_left]
    | succ j =>
      have hdrop : (b ++ L.flatten).drop (k * (j + 1)) = L.flatten.drop (k * j) := by
        rw [show k * (j + 1) = b.length + k * j by rw [hb, Nat.mul_succ]; omega]
        exact List.drop_append (k * j)
      simp only [List.flatten_cons, List.getElem_cons_succ]
      rw [hdrop]
      exact ih j (fun x hx => hk x (List.mem_cons_of_mem _ hx)) (by simpa using hj)

theorem padTo_length (align : Nat) (bytes : List PByte) : (padTo align bytes).length = align := by
  simp [padTo]

theorem asStd140Bytes_length (u : TextureUniforms) : (asStd140Bytes u).length = 16 := rfl

theorem padTo_of_le (align : Nat) (bytes : List PByte) (h : align ≤ bytes.length) :
    padTo align bytes = bytes.take align := by
  unfold padTo
  rw [List.take_append_of_le_length h]

theorem padTo_getElem?_zero (align : Nat) (bytes : List PByte) (k : Nat)
    (hk₁ : bytes.length ≤ k) (hk₂ : k < align) :
    (padTo align bytes)[k]? = some (PByte.raw 0) := by
  unfold padTo
  rw [List.getElem?_take_of_lt hk₂, List.getElem?_append_right hk₁,
    List.getElem?_replicate]
  rw [if_pos (by omega)]

/-! ### Characterizing the group loop -/

theorem synthGroup_cons (align : Nat) (ha : align ≠ 0) (i : Nat)
    (vs : List Vertex) (ixs : List Nat) (s0 : Sprite) (g' : List Sprite) :
    synthGroup align i vs ixs (s0 :: g') =
      some ((synthFold (vs, ixs) (s0 :: g')).1, (synthFold (vs, ixs) (s0 :: g')).2,
        { texture := s0.texture,
          uniformOffset := i * align,
          uniformSize := align,
          index_buffer_start := ixs.length % U32,
          index_buffer_end := (synthFold (vs, ixs) (s0 :: g')).2.length % U32 }) := by
  simp [synthGroup, ha]

theorem synthGroups_eq (align : Nat) (ha : align ≠ 0) :
    ∀ (G : List (List Sprite)) (i : Nat) (vs : List Vertex) (ixs : List Nat),
      (∀ g ∈ G, g ≠ []) →
      ∃ pgs : List PreparedGroup,
        synthGroups align i vs ixs G =
          some ((synthFold (vs, ixs) G.flatten).1, (synthFold (vs, ixs) G.flatten).2, pgs) ∧
        pgs.length = G.length ∧
        chainFrom (ixs.length % U32)
          (pgs.map (fun p => (p.index_buffer_start, p.index_buffer_end)))
          ((synthFold (vs, ixs) G.flatten).2.length % U32) ∧
        ∀ j, (hjG : j < G.length) → (hj : j < pgs.length) →
          pgs[j].uniformOffset = (i + j) * align ∧
          pgs[j].uniformSize = align ∧
          pgs[j].index_buffer_start = (ixs.length + 6 * ((G.take j).flatten.length)) % U32 ∧
          pgs[j].index_buffer_end = (ixs.length + 6 * ((G.take (j + 1)).flatten.length)) % U32 ∧
          ∀ s, G[j].head? = some s → pgs[j].texture = s.texture := by
  intro G
  induction G with
  | nil =>
    intro i vs ixs _
    refine ⟨[], by simp [synthGroups, synthFold], by simp, by exact rfl, ?_⟩
    intro j hjG
    exact absurd hjG (by simp)
  | cons g gs ih =>
    intro i vs ixs hne
    have hg : g ≠ [] := hne g (List.mem_cons_self _ _)
    cases g with
    | nil => exact absurd rfl hg
    | cons s0 g' =>
      obtain ⟨pgs', hEq, hLen, hChain, hGet⟩ :=
        ih (i + 1) (synthFold (vs, ixs) (s0 :: g')).1 (synthFold (vs, ixs) (s0 :: g')).2
          (fun x hx => hne x (List.mem_cons_of_mem _ hx))
      refine ⟨{ texture := s0.texture, uniformOffset := i * align, uniformSize := align,
                index_buffer_start := ixs.length % U32,
                index_buffer_end := (synthFold (vs, ixs) (s0 :: g')).2.length % U32 } :: pgs',
              ?_, ?_, ?_, ?_⟩
      · simp only [synthGroups, synthGroup_cons align ha, hEq, List.flatten_cons, synthFold_append]
      · simp [hLen]
      · simp only [List.map_cons, List.flatten_cons, synthFold_append]
        exact ⟨rfl, hChain⟩
      · intro j hjG hj
        cases j with
        | zero =>
          refine ⟨by simp, rfl, by simp, ?_, ?_⟩
          · simp [synthFold_snd_length]
          · intro s hs
            simp only [List.getElem_cons_zero, List.head?_cons, Option.some.injEq] at hs
            subst hs
            rfl
        | succ j =>
          have hjG' : j < gs.length := by simpa using hjG
          have hj' : j < pgs'.length := by simpa using hj
          obtain ⟨h1, h2, h3, h4, h5⟩ := hGet j hjG' hj'
          refine ⟨?_, ?_, ?_, ?_, ?_⟩
          · simp only [List.getElem_cons_succ, h1]
            congr 1
            omega
          · simp only [List.getElem_cons_succ, h2]
          · simp only [List.getElem_cons_succ, h3, synthFold_snd_length, List.take_succ_cons,
              List.flatten_cons, List.length_append]
            congr 1
            omega
          · simp only [List.getElem_cons_succ, h4, synthFold_snd_length, List.take_succ_cons,
              List.flatten_cons, List.length_append]
            congr 1
            omega
          · intro s hs
            simp only [List.getElem_cons_succ] at hs ⊢
            exact h5 s hs

/-! ### Characterizing the uniform packing and `prepare` -/

theorem packUniforms_eq (align : Nat) :
    ∀ (G : List (List Sprite)), (∀ g ∈ G, g ≠ []) →
      packUniforms align G =
        some ((G.map (fun g => g.head?.elim []
          (fun s => padTo align (asStd140Bytes (mkTextureUniforms s.texture))))).flatten) := by
  intro G
  induction G with
  | nil => intro _; rfl
  | cons g gs ih =>
    intro hne
    have hg : g ≠ [] := hne g (List.mem_cons_self _ _)
    cases g with
    | nil => exact absurd rfl hg
    | cons s0 g' =>
      simp [packUniforms, ih (fun x hx => hne x (List.mem_cons_of_mem _ hx)), Option.elim]

theorem packBlocks_length (align : Nat) :
    ∀ (G : List (List Sprite)), (∀ g ∈ G, g ≠ []) →
      ((G.map (fun g => g.head?.elim []
        (fun s => padTo align (asStd140Bytes (mkTextureUniforms s.texture))))).flatten).length
        = G.length * align := by
  intro G
  induction G with
  | nil => intro _; simp
  | cons g gs ih =>
    intro hne
    have hg : g ≠ [] := hne g (List.mem_cons_self _ _)
    cases g with
    | nil => exact absurd rfl hg
    | cons s0 g' =>
      simp only [List.map_cons, List.flatten_cons, List.length_append,
        ih (fun x hx => hne x (List.mem_cons_of_mem _ hx))]
      simp [Option.elim, padTo_length]
      ring

theorem prepare_eq (r : Renderer) (dev : DeviceLimits) (sprites : List Sprite)
    (ha : dev.min_uniform_buffer_offset_alignment ≠ 0) :
    ∃ pgs : List PreparedGroup,
      r.prepare dev sprites = some
        { renderer :=
            { texture_uniforms_buffer := ensure_buffer_size r.texture_uniforms_buffer
                ((chunkByKey (fun s => s.texture.id) sprites).length *
                  dev.min_uniform_buffer_offset_alignment),
              vertex_buffer := ensure_buffer_size r.vertex_buffer
                (4 * sprites.length * VERTEX_SIZE),
              index_buffer := ensure_buffer_size r.index_buffer (6 * sprites.length * 4),
              prepared_groups := pgs },
          texture_uniforms := ((chunkByKey (fun s => s.texture.id) sprites).map
            (fun g => g.head?.elim []
              (fun s => padTo dev.min_uniform_buffer_offset_alignment
                (asStd140Bytes (mkTextureUniforms s.texture))))).flatten,
          vertices := (sprites.map quadVertices).flatten,
          indices := ((List.range sprites.length).map (fun j => quadIndices (4 * j))).flatten } ∧
      pgs.length = (chunkByKey (fun s => s.texture.id) sprites).length ∧
      chainFrom 0 (pgs.map (fun p => (p.index_buffer_start, p.index_buffer_end)))
        ((6 * sprites.length) % U32) ∧
      ∀ j, (hjG : j < (chunkByKey (fun s => s.texture.id) sprites).length) →
        (hj : j < pgs.length) →
        pgs[j].uniformOffset = j * dev.min_uniform_buffer_offset_alignment ∧
        pgs[j].uniformSize = dev.min_uniform_buffer_offset_alignment ∧
        pgs[j].index_buffer_start =
          (6 * (((chunkByKey (fun s => s.texture.id) sprites).take j).flatten.length)) % U32 ∧
        pgs[j].index_buffer_end =
          (6 * (((chunkByKey (fun s => s.texture.id) sprites).take (j + 1)).flatten.length)) % U32 ∧
        ∀ s, (chunkByKey (fun s => s.texture.id) sprites)[j].head? = some s →
          pgs[j].texture = s.texture := by
  have hne := chunkByKey_ne_nil (fun s => s.texture.id) sprites
  have hflat := chunkByKey_flatten (fun s => s.texture.id) sprites
  have hpack := packUniforms_eq dev.min_uniform_buffer_offset_alignment
    (chunkByKey (fun s => s.texture.id) sprites) hne
  obtain ⟨pgs, hSyn, hLen, hChain, hGet⟩ :=
    synthGroups_eq dev.min_uniform_buffer_offset_alignment ha
      (chunkByKey (fun s => s.texture.id) sprites) 0 [] [] hne
  rw [hflat] at hSyn hChain
  refine ⟨pgs, ?_, hLen, ?_, ?_⟩
  · simp only [Renderer.prepare, hpack, hSyn, Option.some.injEq]
    have hvlen : (synthFold ([], []) sprites).1.length = 4 * sprites.length := by
      rw [synthFold_fst_length]; simp
    have hilen : (synthFold ([], []) sprites).2.length = 6 * sprites.length := by
      rw [synthFold_snd_length]; simp
    have hvert : (synthFold (([] : List Vertex), ([] : List Nat)) sprites).1 =
        (sprites.map quadVertices).flatten := by
      rw [synthFold_fst]; simp
    have hidx : (synthFold (([] : List Vertex), ([] : List Nat)) sprites).2 =
        ((List.range sprites.length).map (fun j => quadIndices (4 * j))).flatten := by
      rw [synthFold_snd]; simp
    rw [packBlocks_length dev.min_uniform_buffer_offset_alignment _ hne, hvlen, hilen, hvert, hidx]
  · have : (([] : List Nat)).length % U32 = 0 := by simp
    rw [this] at hChain
    have hilen : (synthFold (([] : List Vertex), ([] : List Nat)) sprites).2.length
        = 6 * sprites.length := by
      rw [synthFold_snd_length]; simp
    rw [hilen] at hChain
    exact hChain
  · intro j hjG hj
    obtain ⟨h1, h2, h3, h4, h5⟩ := hGet j hjG hj
    refine ⟨by simpa using h1, h2, by simpa using h3, by simpa using h4, h5⟩

theorem prepare_nil (r : Renderer) (dev : DeviceLimits) :
    r.prepare dev [] = some
      { renderer := { texture_uniforms_buffer := ensure_buffer_size r.texture_uniforms_buffer 0,
                      vertex_buffer := ensure_buffer_size r.vertex_buffer 0,
                      index_buffer := ensure_buffer_size r.index_buffer 0,
                      prepared_groups := [] },
        texture_uniforms := [], vertices := [], indices := [] } := rfl

theorem prepare_align0 (r : Renderer) (dev : DeviceLimits)
    (ha : dev.min_uniform_buffer_offset_alignment = 0) (s : Sprite) (rest : List Sprite) :
    r.prepare dev (s :: rest) = none := by
  obtain ⟨t, gs, h⟩ := chunkByKey_cons (fun s => s.texture.id) s rest
  cases hP : packUniforms 0 ((s :: t) :: gs) with
  | none => simp [Renderer.prepare, h, ha, hP]
  | some T => simp [Renderer.prepare, h, ha, hP, synthGroups, synthGroup]

theorem prepare_buffers (r : Renderer) (dev : DeviceLimits) (sprites : List Sprite)
    (ha : dev.min_uniform_buffer_offset_alignment ≠ 0) :
    ∃ out, r.prepare dev sprites = some out ∧
      out.renderer.texture_uniforms_buffer = ensure_buffer_size r.texture_uniforms_buffer
        ((chunkByKey (fun s => s.texture.id) sprites).length *
          dev.min_uniform_buffer_offset_alignment) ∧
      out.renderer.vertex_buffer =
        ensure_buffer_size r.vertex_buffer (4 * sprites.length * VERTEX_SIZE) ∧
      out.renderer.index_buffer = ensure_buffer_size r.index_buffer (6 * sprites.length * 4) := by
  obtain ⟨pgs, hEq, -, -, -⟩ := prepare_eq r dev sprites ha
  exact ⟨_, hEq, rfl, rfl, rfl⟩

theorem prepare_uniform_block (r : Renderer) (dev : DeviceLimits) (sprites : List Sprite)
    (out : PrepareResult) (ha : dev.min_uniform_buffer_offset_alignment ≠ 0)
    (hp : r.prepare dev sprites = some out) (i : Nat)
    (hi : i < out.renderer.prepared_groups.length) :
    (out.texture_uniforms.drop (i * dev.min_uniform_buffer_offset_alignment)).take
        dev.min_uniform_buffer_offset_alignment =
      padTo dev.min_uniform_buffer_offset_alignment
        (asStd140Bytes (mkTextureUniforms (out.renderer.prepared_groups[i].texture))) ∧
    out.renderer.prepared_groups[i].uniformOffset =
      i * dev.min_uniform_buffer_offset_alignment ∧
    out.renderer.prepared_groups[i].uniformSize = dev.min_uniform_buffer_offset_alignment ∧
    out.texture_uniforms.length =
      out.renderer.prepared_groups.length * dev.min_uniform_buffer_offset_alignment := by
  obtain ⟨pgs, hEq, hLen, hChain, hGet⟩ := prepare_eq r dev sprites ha
  rw [hp] at hEq
  obtain rfl := Option.some.inj hEq
  have hne := chunkByKey_ne_nil (fun s => s.texture.id) sprites
  simp only at hi ⊢
  have hiG : i < (chunkByKey (fun s => s.texture.id) sprites).length := hLen ▸ hi
  have hblock : ∀ b ∈ (chunkByKey (fun s => s.texture.id) sprites).map
      (fun g => g.head?.elim []
        (fun s => padTo dev.min_uniform_buffer_offset_alignment
          (asStd140Bytes (mkTextureUniforms s.texture)))),
      b.length = dev.min_uniform_buffer_offset_alignment := by
    intro b hb
    obtain ⟨g, hgmem, rfl⟩ := List.mem_map.mp hb
    cases g with
    | nil => exact absurd rfl (hne _ hgmem)
    | cons s0 g' => simp [Option.elim, padTo_length]
  have hslice := flatten_blocks_get dev.min_uniform_buffer_offset_alignment
    ((chunkByKey (fun s => s.texture.id) sprites).map
      (fun g => g.head?.elim []
        (fun s => padTo dev.min_uniform_buffer_offset_alignment
          (asStd140Bytes (mkTextureUniforms s.texture)))))
    i hblock (by simpa using hiG)
  rw [show dev.min_uniform_buffer_offset_alignment * i
      = i * dev.min_uniform_buffer_offset_alignment by rw [Nat.mul_comm]] at hslice
  obtain ⟨h1, h2, h3, h4, h5⟩ := hGet i hiG hi
  refine ⟨?_, h1, h2, packBlocks_length _ _ hne ▸ (by rw [hLen])⟩
  rw [hslice, List.getElem_map]
  cases hG : (chunkByKey (fun s => s.texture.id) sprites)[i] with
  | nil => exact absurd rfl (hne _ (hG ▸ List.getElem_mem hiG))
  | cons s0 g' =>
    have htex : pgs[i].texture = s0.texture := h5 s0 (by rw [hG]; rfl)
    rw [htex]
    simp [Option.elim]

/-- C8: `prepare` on an empty sprite list succeeds without error, produces
zero groups and zero-length uniform, vertex and index data, and a
subsequent `render` records zero draw calls. -/
theorem spright_C8 (r : Renderer) (dev : DeviceLimits) :
    (r.prepare dev []).map (fun out =>
        (out.renderer.prepared_groups.length, out.texture_uniforms, out.vertices,
         out.indices, out.renderer.render)) =
      some (0, ([] : List PByte), ([] : List Vertex), ([] : List Nat),
        ([] : List (Nat × Nat))) := by
  rw [prepare_nil]
  rfl

/-- C1: the grouping `prepare` performs (`chunkByKey` on texture identity,
the `chunk_by(global_id)` call) partitions the sprite list: flattening the
groups reproduces the input order exactly, every group is a nonempty run
of a single texture identity, no two adjacent groups share a texture
identity, and `prepare` emits one prepared group per run; for textures in
order A, B, A the grouping yields exactly 3 groups. -/
theorem spright_C1 :
    (∀ sprites : List Sprite,
      (chunkByKey (fun s => s.texture.id) sprites).flatten = sprites ∧
      (∀ g ∈ chunkByKey (fun s => s.texture.id) sprites,
        g ≠ [] ∧ ∀ a ∈ g, ∀ b ∈ g, a.texture.id = b.texture.id) ∧
      List.Chain' (fun g h => ∀ a ∈ g, ∀ b ∈ h, a.texture.id ≠ b.texture.id)
        (chunkByKey (fun s => s.texture.id) sprites) ∧
      (∀ (r : Renderer) (dev : DeviceLimits) (out : PrepareResult),
        r.prepare dev sprites = some out →
        out.renderer.prepared_groups.length =
          (chunkByKey (fun s => s.texture.id) sprites).length)) ∧
    (chunkByKey (fun s => s.texture.id)
      [mkSprite texA, mkSprite texB, mkSprite texA]).length = 3 := by
  refine ⟨?_, by decide⟩
  intro sprites
  refine ⟨chunkByKey_flatten _ sprites, ?_, chunkByKey_chain _ sprites, ?_⟩
  · intro g hg
    obtain ⟨c, hne, hc⟩ := chunkByKey_mem (fun s => s.texture.id) sprites g hg
    exact ⟨hne, fun a ha b hb => (hc a ha).trans (hc b hb).symm⟩
  · intro r dev out hp
    by_cases ha : dev.min_uniform_buffer_offset_alignment = 0
    · cases sprites with
      | nil =>
        rw [prepare_nil] at hp
        obtain rfl := Option.some.inj hp
        rfl
      | cons s rest =>
        rw [prepare_align0 r dev ha s rest] at hp
        exact absurd hp (by simp)
    · obtain ⟨pgs, hEq, hLen, -, -⟩ := prepare_eq r dev sprites ha
      rw [hp] at hEq
      obtain rfl := Option.some.inj hEq
      exact hLen

theorem spright_C1_witness :
    (chunkByKey (fun s => s.texture.id) [mkSprite texA, mkSprite texB]).flatten
        = [mkSprite texA, mkSprite texB] ∧
    [mkSprite texA] ≠ ([] : List Sprite) :=
  ⟨(spright_C1.1 [mkSprite texA, mkSprite texB]).1,
   ((spright_C1.1 [mkSprite texA, mkSprite texB]).2.1 [mkSprite texA] (by decide)).1⟩

theorem chunkByKey_replicate (n : Nat) (hn : n ≠ 0) (s : Sprite) :
    chunkByKey (fun s => s.texture.id) (List.replicate n s) = [List.replicate n s] := by
  apply chunkByKey_const _ s.texture.id
  · exact fun h => hn (by simpa using congrArg List.length h)
  · intro x hx
    rw [List.eq_of_mem_replicate hx]

/-- C5: `ensure_buffer_size` keeps a large-enough buffer untouched and
otherwise allocates exactly the required size with the same usage flags,
so sizes never decrease; consequently `prepare` calls with sprite counts
100, 10, 100 leave the uniform, vertex and index buffers after the third
call identical to their state after the first call (sizes 256, 36864 and
4096 bytes with alignment 256), with no reallocation in between. -/
theorem spright_C5 :
    (∀ (b : Buffer) (s : Nat),
      (s ≤ b.size → ensure_buffer_size b s = b) ∧
      (b.size < s → ensure_buffer_size b s = { size := s, usage := b.usage }) ∧
      b.size ≤ (ensure_buffer_size b s).size) ∧
    ((((Renderer.new dev256).prepare dev256 (List.replicate 100 (mkSprite texA))).bind
        (fun o => o.renderer.prepare dev256 (List.replicate 10 (mkSprite texA)))).bind
        (fun o => o.renderer.prepare dev256 (List.replicate 100 (mkSprite texA)))).map
        (fun o => (o.renderer.texture_uniforms_buffer, o.renderer.vertex_buffer,
                   o.renderer.index_buffer)) =
      some ({ size := 256, usage := BufferUsage.uniformCopyDst },
            { size := 36864, usage := BufferUsage.vertexCopyDst },
            { size := 4096, usage := BufferUsage.indexCopyDst }) ∧
    ((Renderer.new dev256).prepare dev256 (List.replicate 100 (mkSprite texA))).map
        (fun o => (o.renderer.texture_uniforms_buffer, o.renderer.vertex_buffer,
                   o.renderer.index_buffer)) =
      some ({ size := 256, usage := BufferUsage.uniformCopyDst },
            { size := 36864, usage := BufferUsage.vertexCopyDst },
            { size := 4096, usage := BufferUsage.indexCopyDst }) := by
  have hbuf : ∀ (b : Buffer) (s : Nat),
      (s ≤ b.size → ensure_buffer_size b s = b) ∧
      (b.size < s → ensure_buffer_size b s = { size := s, usage := b.usage }) ∧
      b.size ≤ (ensure_buffer_size b s).size := by
    intro b s
    refine ⟨fun h => by simp [ensure_buffer_size, h],
            fun h => by simp [ensure_buffer_size, show ¬ (s ≤ b.size) by omega], ?_⟩
    unfold ensure_buffer_size
    split
    · exact Nat.le_refl _
    · show b.size ≤ s
      omega
  obtain ⟨out1, h1, hU1, hV1, hI1⟩ :=
    prepare_buffers (Renderer.new dev256) dev256 (List.replicate 100 (mkSprite texA)) (by decide)
  rw [chunkByKey_replicate 100 (by decide) (mkSprite texA)] at hU1
  have hU1' : out1.renderer.texture_uniforms_buffer =
      { size := 256, usage := BufferUsage.uniformCopyDst } := by
    rw [hU1]; rfl
  have hV1' : out1.renderer.vertex_buffer =
      { size := 36864, usage := BufferUsage.vertexCopyDst } := by
    rw [hV1]; rfl
  have hI1' : out1.renderer.index_buffer =
      { size := 4096, usage := BufferUsage.indexCopyDst } := by
    rw [hI1]; rfl
  obtain ⟨out2, h2, hU2, hV2, hI2⟩ :=
    prepare_buffers out1.renderer dev256 (List.replicate 10 (mkSprite texA)) (by decide)
  rw [chunkByKey_replicate 10 (by decide) (mkSprite texA), hU1'] at hU2
  rw [hV1'] at hV2
  rw [hI1'] at hI2
  have hU2' : out2.renderer.texture_uniforms_buffer =
      { size := 256, usage := BufferUsage.uniformCopyDst } := by rw [hU2]; rfl
  have hV2' : out2.renderer.vertex_buffer =
      { size := 36864, usage := BufferUsage.vertexCopyDst } := by rw [hV2]; rfl
  have hI2' : out2.renderer.index_buffer =
      { size := 4096, usage := BufferUsage.indexCopyDst } := by rw [hI2]; rfl
  obtain ⟨out3, h3, hU3, hV3, hI3⟩ :=
    prepare_buffers out2.renderer dev256 (List.replicate 100 (mkSprite texA)) (by decide)
  rw [chunkByKey_replicate 100 (by decide) (mkSprite texA), hU2'] at hU3
  rw [hV2'] at hV3
  rw [hI2'] at hI3
  have hU3' : out3.renderer.texture_uniforms_buffer =
      { size := 256, usage := BufferUsage.uniformCopyDst } := by rw [hU3]; rfl
  have hV3' : out3.renderer.vertex_buffer =
      { size := 36864, usage := BufferUsage.vertexCopyDst } := by rw [hV3]; rfl
  have hI3' : out3.renderer.index_buffer =
      { size := 4096, usage := BufferUsage.indexCopyDst } := by rw [hI3]; rfl
  refine ⟨hbuf, ?_, ?_⟩
  · rw [h1]
    simp only [Option.some_bind]
    rw [h2]
    simp only [Option.some_bind]
    rw [h3]
    simp only [Option.map_some']
    rw [hU3', hV3', hI3']
  · rw [h1]
    simp only [Option.map_some']
    rw [hU1', hV1', hI1']

theorem spright_C5_witness :
    ensure_buffer_size { size := 100, usage := BufferUsage.vertexCopyDst } 40 =
      { size := 100, usage := BufferUsage.vertexCopyDst } ∧
    ensure_buffer_size { size := 100, usage := BufferUsage.vertexCopyDst } 200 =
      { size := 200, usage := BufferUsage.vertexCopyDst } :=
  ⟨(spright_C5.1 { size := 100, usage := BufferUsage.vertexCopyDst } 40).1 (by decide),
   (spright_C5.1 { size := 100, usage := BufferUsage.vertexCopyDst } 200).2.1 (by decide)⟩

theorem flatten_blocks_length {α : Type} (k : Nat) :
    ∀ (L : List (List α)), (∀ b ∈ L, b.length = k) → L.flatten.length = L.length * k := by
  intro L
  induction L with
  | nil => intro _; simp
  | cons b L ih =>
    intro hk
    simp only [List.flatten_cons, List.length_append, hk b (List.mem_cons_self _ _),
      ih (fun x hx => hk x (List.mem_cons_of_mem _ hx)), List.length_cons]
    ring

theorem prepare_lengths (r : Renderer) (dev : DeviceLimits) (sprites : List Sprite)
    (out : PrepareResult) (ha : dev.min_uniform_buffer_offset_alignment ≠ 0)
    (hp : r.prepare dev sprites = some out) :
    out.vertices.length = 4 * sprites.length ∧ out.indices.length = 6 * sprites.length := by
  obtain ⟨pgs, hEq, -, -, -⟩ := prepare_eq r dev sprites ha
  rw [hp] at hEq
  obtain rfl := Option.some.inj hEq
  constructor
  · rw [flatten_blocks_length 4 (sprites.map quadVertices)
      (by intro b hb; obtain ⟨s, -, rfl⟩ := List.mem_map.mp hb; exact quadVertices_length s)]
    simp [Nat.mul_comm]
  · rw [flatten_blocks_length 6 ((List.range sprites.length).map (fun j => quadIndices (4 * j)))
      (by intro b hb; obtain ⟨j, -, rfl⟩ := List.mem_map.mp hb; exact quadIndices_length _)]
    simp [Nat.mul_comm]

theorem take_flatten_le {α : Type} (L : List (List α)) (j : Nat) :
    (L.take j).flatten.length ≤ (L.take (j + 1)).flatten.length ∧
    (L.take j).flatten.length ≤ L.flatten.length := by
  constructor
  · rw [List.take_succ, List.flatten_append, List.length_append]
    exact Nat.le_add_right _ _
  · conv_rhs => rw [← List.take_append_drop j L]
    rw [List.flatten_append, List.length_append]
    exact Nat.le_add_right _ _

theorem prepare_replicate (N : Nat) (hN : N ≠ 0) :
    ∃ out, (Renderer.new dev256).prepare dev256 (List.replicate N (mkSprite texA)) = some out ∧
      out.indices = ((List.range N).map (fun j => quadIndices (4 * j))).flatten ∧
      out.vertices.length = 4 * N ∧
      out.indices.length = 6 * N ∧
      out.renderer.prepared_groups.map (fun p => (p.index_buffer_start, p.index_buffer_end))
        = [(0, (6 * N) % U32)] := by
  have ha : dev256.min_uniform_buffer_offset_alignment ≠ 0 := by decide
  obtain ⟨pgs, hEq, hLen, hChain, hGet⟩ :=
    prepare_eq (Renderer.new dev256) dev256 (List.replicate N (mkSprite texA)) ha
  obtain ⟨hvlen, hilen⟩ := prepare_lengths (Renderer.new dev256) dev256
    (List.replicate N (mkSprite texA)) _ ha hEq
  have hch := chunkByKey_replicate N hN (mkSprite texA)
  rw [hch] at hLen hGet
  refine ⟨_, hEq, by simp, by simpa using hvlen, by simpa using hilen, ?_⟩
  match pgs, hLen with
  | [pg], _ =>
    obtain ⟨-, -, h3, h4, -⟩ := hGet 0 (by simp) (by simp)
    simp only [List.getElem_cons_zero] at h3 h4
    simp only [List.map_cons, List.map_nil, h3, h4]
    simp

/-- C6 (amended): `Renderer::new` never inspects the device-reported
uniform alignment — construction succeeds and yields the same renderer for
every device, a zero alignment included; instead, with a zero alignment
`prepare` packs zero-length (zero-stride) uniform records and then fails
(the `NonZero::new(0).unwrap()` panic while building the bind group) as
soon as there is at least one group. -/
theorem spright_C6 :
    (∀ d d' : DeviceLimits, Renderer.new d = Renderer.new d') ∧
    (∀ bytes : List PByte, padTo 0 bytes = []) ∧
    (∀ (r : Renderer) (dev : DeviceLimits) (s : Sprite) (rest : List Sprite),
      dev.min_uniform_buffer_offset_alignment = 0 →
      r.prepare dev (s :: rest) = none) := by
  refine ⟨fun d d' => rfl, fun bytes => rfl, ?_⟩
  intro r dev s rest ha
  exact prepare_align0 r dev ha s rest

theorem spright_C6_witness :
    (Renderer.new dev256).prepare dev0 [mkSprite texB] = none :=
  spright_C6.2.2 (Renderer.new dev256) dev0 (mkSprite texB) [] rfl

/-- C6 counterexample: a device reporting zero uniform alignment does not
make construction fail — `new` returns the very same complete renderer it
returns for an ordinary device — and the packer does pack a zero-stride
(empty) record; the failure happens only later, inside `prepare`. -/
theorem spright_C6_cex :
    Renderer.new dev0 = Renderer.new dev256 ∧
    packUniforms 0 [[mkSprite texA]] = some [] ∧
    (Renderer.new dev0).prepare dev0 [mkSprite texA] = none := by
  refine ⟨rfl, rfl, ?_⟩
  exact prepare_align0 (Renderer.new dev0) dev0 rfl (mkSprite texA) []

/-- C10: with any positive alignment stride, each group's packed uniform
record occupies exactly the stride in the shared byte buffer — when the
stride is smaller than the 16-byte std140 struct size the record's
trailing bytes are silently truncated rather than padded or rejected —
and the uniform byte buffer's total length is always group count times
stride. -/
theorem spright_C10 (r : Renderer) (dev : DeviceLimits) (sprites : List Sprite)
    (out : PrepareResult) (ha : 0 < dev.min_uniform_buffer_offset_alignment)
    (hp : r.prepare dev sprites = some out) :
    out.texture_uniforms.length =
      out.renderer.prepared_groups.length * dev.min_uniform_buffer_offset_alignment ∧
    (∀ i, (hi : i < out.renderer.prepared_groups.length) →
      ((out.texture_uniforms.drop (i * dev.min_uniform_buffer_offset_alignment)).take
          dev.min_uniform_buffer_offset_alignment).length =
        dev.min_uniform_buffer_offset_alignment ∧
      (out.texture_uniforms.drop (i * dev.min_uniform_buffer_offset_alignment)).take
          dev.min_uniform_buffer_offset_alignment =
        padTo dev.min_uniform_buffer_offset_alignment
          (asStd140Bytes (mkTextureUniforms (out.renderer.prepared_groups[i].texture)))) ∧
    (dev.min_uniform_buffer_offset_alignment ≤ 16 →
      ∀ i, (hi : i < out.renderer.prepared_groups.length) →
        (out.texture_uniforms.drop (i * dev.min_uniform_buffer_offset_alignment)).take
            dev.min_uniform_buffer_offset_alignment =
          (asStd140Bytes (mkTextureUniforms
            (out.renderer.prepared_groups[i].texture))).take
            dev.min_uniform_buffer_offset_alignment) := by
  have ha' : dev.min_uniform_buffer_offset_alignment ≠ 0 := by omega
  have htotal : out.texture_uniforms.length =
      out.renderer.prepared_groups.length * dev.min_uniform_buffer_offset_alignment := by
    obtain ⟨pgs, hEq, hLen, -, -⟩ := prepare_eq r dev sprites ha'
    rw [hp] at hEq
    obtain rfl := Option.some.inj hEq
    simp only
    rw [packBlocks_length _ _ (chunkByKey_ne_nil (fun s => s.texture.id) sprites), hLen]
  refine ⟨htotal, ?_, ?_⟩
  · intro i hi
    obtain ⟨hslice, -, -, -⟩ := prepare_uniform_block r dev sprites out ha' hp i hi
    exact ⟨by rw [hslice, padTo_length], hslice⟩
  · intro hle i hi
    obtain ⟨hslice, -, -, -⟩ := prepare_uniform_block r dev sprites out ha' hp i hi
    rw [hslice, padTo_of_le]
    rw [asStd140Bytes_length]
    exact hle

theorem spright_C10_witness :
    ((Renderer.new dev8).prepare dev8 [mkSprite texA]).map
        (fun out => (out.texture_uniforms.length, out.texture_uniforms)) =
      some (8, (asStd140Bytes (mkTextureUniforms texA)).take 8) := by
  cases hq : (Renderer.new dev8).prepare dev8 [mkSprite texA] with
  | none => exact absurd hq (by decide)
  | some out =>
    have h := spright_C10 (Renderer.new dev8) dev8 [mkSprite texA] out (by decide) hq
    obtain ⟨pgs, hEq, hLen, -, -⟩ :=
      prepare_eq (Renderer.new dev8) dev8 [mkSprite texA] (by decide)
    rw [hq] at hEq
    obtain rfl := Option.some.inj hEq
    simp only [Option.map_some', Option.some.injEq, Prod.mk.injEq]
    constructor
    · rw [h.1, hLen]
      decide
    · decide

/-- C4: with a stride equal to the device's uniform alignment, at least
the 16-byte struct size, group `i`'s `TextureUniforms` record is packed
into the shared byte buffer at byte offset `i * stride`, the bytes of its
slice in `[16, stride)` are zero, and group `i`'s bind group references
the uniform buffer slice at offset `i * stride` of size `stride`. -/
theorem spright_C4 (r : Renderer) (dev : DeviceLimits) (sprites : List Sprite)
    (out : PrepareResult) (h16 : 16 ≤ dev.min_uniform_buffer_offset_alignment)
    (hp : r.prepare dev sprites = some out) :
    ∀ i, (hi : i < out.renderer.prepared_groups.length) →
      out.renderer.prepared_groups[i].uniformOffset =
        i * dev.min_uniform_buffer_offset_alignment ∧
      out.renderer.prepared_groups[i].uniformSize = dev.min_uniform_buffer_offset_alignment ∧
      (out.texture_uniforms.drop (i * dev.min_uniform_buffer_offset_alignment)).take
          dev.min_uniform_buffer_offset_alignment =
        padTo dev.min_uniform_buffer_offset_alignment
          (asStd140Bytes (mkTextureUniforms (out.renderer.prepared_groups[i].texture))) ∧
      (∀ k, 16 ≤ k → k < dev.min_uniform_buffer_offset_alignment →
        out.texture_uniforms[i * dev.min_uniform_buffer_offset_alignment + k]? =
          some (PByte.raw 0)) := by
  have ha' : dev.min_uniform_buffer_offset_alignment ≠ 0 := by omega
  intro i hi
  obtain ⟨hslice, hoff, hsize, -⟩ := prepare_uniform_block r dev sprites out ha' hp i hi
  refine ⟨hoff, hsize, hslice, ?_⟩
  intro k hk16 hka
  have h1 : out.texture_uniforms[i * dev.min_uniform_buffer_offset_alignment + k]? =
      (out.texture_uniforms.drop (i * dev.min_uniform_buffer_offset_alignment))[k]? :=
    (List.getElem?_drop _ _ _).symm
  have h2 : (out.texture_uniforms.drop (i * dev.min_uniform_buffer_offset_alignment))[k]? =
      ((out.texture_uniforms.drop (i * dev.min_uniform_buffer_offset_alignment)).take
        dev.min_uniform_buffer_offset_alignment)[k]? :=
    (List.getElem?_take_of_lt hka).symm
  rw [h1, h2, hslice]
  exact padTo_getElem?_zero _ _ k (by rw [asStd140Bytes_length]; exact hk16) hka

theorem spright_C4_witness :
    ((Renderer.new dev32).prepare dev32 [mkSprite texA]).map
        (fun out => out.texture_uniforms[20]?) = some (some (PByte.raw 0)) := by
  cases hq : (Renderer.new dev32).prepare dev32 [mkSprite texA] with
  | none => exact absurd hq (by decide)
  | some out =>
    obtain ⟨pgs, hEq, hLen, -, -⟩ :=
      prepare_eq (Renderer.new dev32) dev32 [mkSprite texA] (by decide)
    rw [hq] at hEq
    obtain rfl := Option.some.inj hEq
    have hi : 0 < (List.length ∘ Renderer.prepared_groups ∘ PrepareResult.renderer)
        { renderer :=
            { texture_uniforms_buffer := ensure_buffer_size
                (Renderer.new dev32).texture_uniforms_buffer
                ((chunkByKey (fun s => s.texture.id) [mkSprite texA]).length *
                  dev32.min_uniform_buffer_offset_alignment),
              vertex_buffer := ensure_buffer_size (Renderer.new dev32).vertex_buffer
                (4 * [mkSprite texA].length * VERTEX_SIZE),
              index_buffer := ensure_buffer_size (Renderer.new dev32).index_buffer
                (6 * [mkSprite texA].length * 4),
              prepared_groups := pgs },
          texture_uniforms := ((chunkByKey (fun s => s.texture.id) [mkSprite texA]).map
            (fun g => g.head?.elim []
              (fun s => padTo dev32.min_uniform_buffer_offset_alignment
                (asStd140Bytes (mkTextureUniforms s.texture))))).flatten,
          vertices := ([mkSprite texA].map quadVertices).flatten,
          indices := ((List.range [mkSprite texA].length).map
            (fun j => quadIndices (4 * j))).flatten } := by
      simp only [Function.comp]
      rw [hLen]
      decide
    have h := spright_C4 (Renderer.new dev32) dev32 [mkSprite texA] _ (by decide) hq 0
      (by simpa using hi)
    obtain ⟨-, -, -, hzero⟩ := h
    have := hzero 20 (by omega) (by decide)
    simpa using this

theorem u32le_length (n : Nat) : (u32le n).length = 4 := rfl

theorem asStd140Bytes_drop12 (u : TextureUniforms) :
    (asStd140Bytes u).drop 12 = u32le u.is_mask := rfl

/-- C9 (amended): the is-mask field of each group's packed record (the
little-endian `u32` at bytes 12..16 of the group's uniform slice) equals 1
exactly when the group's texture format is `R8Unorm`, and 0 for every
other format — including other single-channel formats such as
`R32Float`. -/
theorem spright_C9 (r : Renderer) (dev : DeviceLimits) (sprites : List Sprite)
    (out : PrepareResult) (h16 : 16 ≤ dev.min_uniform_buffer_offset_alignment)
    (hp : r.prepare dev sprites = some out) :
    ∀ i, (hi : i < out.renderer.prepared_groups.length) →
      (out.texture_uniforms.drop
          (i * dev.min_uniform_buffer_offset_alignment + 12)).take 4 =
        u32le (if out.renderer.prepared_groups[i].texture.format = TextureFormat.R8Unorm
          then 1 else 0) := by
  have ha' : dev.min_uniform_buffer_offset_alignment ≠ 0 := by omega
  intro i hi
  obtain ⟨hslice, -, -, -⟩ := prepare_uniform_block r dev sprites out ha' hp i hi
  rw [← List.drop_drop]
  have hstep : ((out.texture_uniforms.drop
      (i * dev.min_uniform_buffer_offset_alignment)).drop 12).take 4 =
      (((out.texture_uniforms.drop
        (i * dev.min_uniform_buffer_offset_alignment)).take
          dev.min_uniform_buffer_offset_alignment).drop 12).take 4 := by
    rw [List.drop_take, List.take_take, Nat.min_eq_left (by omega)]
  rw [hstep, hslice]
  unfold padTo
  rw [List.drop_take, List.take_take, Nat.min_eq_left (by omega)]
  rw [List.drop_append_of_le_length (by rw [asStd140Bytes_length]; omega)]
  rw [asStd140Bytes_drop12]
  rw [List.take_left' (u32le_length _)]
  rfl

theorem spright_C9_witness :
    ((Renderer.new dev32).prepare dev32 [mkSprite texMask]).map
        (fun out => (out.texture_uniforms.drop 12).take 4) = some (u32le 1) := by
  cases hq : (Renderer.new dev32).prepare dev32 [mkSprite texMask] with
  | none => exact absurd hq (by decide)
  | some out =>
    obtain ⟨pgs, hEq, hLen, -, hGet⟩ :=
      prepare_eq (Renderer.new dev32) dev32 [mkSprite texMask] (by decide)
    rw [hq] at hEq
    obtain rfl := Option.some.inj hEq
    have hi : 0 < pgs.length := by rw [hLen]; decide
    have htex := (hGet 0 (by decide) hi).2.2.2.2 (mkSprite texMask) (by decide)
    have h := spright_C9 (Renderer.new dev32) dev32 [mkSprite texMask] _ (by decide) hq 0
      (by simpa using hi)
    simp only at h
    rw [htex] at h
    rw [show (if (mkSprite texMask).texture.format = TextureFormat.R8Unorm
      then (1 : Nat) else 0) = 1 from rfl] at h
    rw [show ((0 : Nat) * dev32.min_uniform_buffer_offset_alignment + 12) = 12 from rfl] at h
    simp only [Option.map_some']
    rw [h]

/-- C9 counterexample: `R32Float` is a single-channel pixel format, yet
the record packed for a texture of that format carries is-mask 0 — the
code tests specifically for `R8Unorm`, not for "single-channel". -/
theorem spright_C9_cex :
    specSingleChannel texR32.format = true ∧
    (mkTextureUniforms texR32).is_mask = 0 ∧
    ((Renderer.new dev32).prepare dev32 [mkSprite texR32]).map
        (fun out => (out.texture_uniforms.drop 12).take 4) = some (u32le 0) := by
  refine ⟨rfl, rfl, by decide⟩

/-- C2 (amended): for every prepared sprite list, the sprite at position
`j` (submission order) contributes exactly 4 vertices — its transform
applied to the quad corners `(0,0)`, `(0,h)`, `(w,0)`, `(w,h)` sized by
the source rect, extended with `z = 0`, with texture coordinates at the
source rect corners `(left,top)`, `(left,bottom)`, `(right,top)`,
`(right,bottom)` and the tint `rgba/255` replicated on all 4 — and
exactly 6 indices `{0,1,2,1,2,3}`, each offset by the global running
vertex count `4*j` reduced modulo `2^32` (the `as u32` cast in the
source; the claim as stated, without the reduction, fails once the
running count reaches `2^32`). -/
theorem spright_C2 (r : Renderer) (dev : DeviceLimits) (sprites : List Sprite)
    (out : PrepareResult) (j : Nat) (hj : j < sprites.length)
    (ha : dev.min_uniform_buffer_offset_alignment ≠ 0)
    (hp : r.prepare dev sprites = some out) :
    out.vertices.length = 4 * sprites.length ∧
    out.indices.length = 6 * sprites.length ∧
    (out.vertices.drop (4 * j)).take 4 =
      [ { position := ((sprites[j].transform.transformPoint2 (0, 0)).1,
                       (sprites[j].transform.transformPoint2 (0, 0)).2, 0),
          tex_coords := ((sprites[j].src.left : Rat), (sprites[j].src.top : Rat)),
          tint := normTint sprites[j].tint },
        { position := ((sprites[j].transform.transformPoint2
                          (0, (sprites[j].src.size.2 : Rat))).1,
                       (sprites[j].transform.transformPoint2
                          (0, (sprites[j].src.size.2 : Rat))).2, 0),
          tex_coords := ((sprites[j].src.left : Rat), (sprites[j].src.bottom : Rat)),
          tint := normTint sprites[j].tint },
        { position := ((sprites[j].transform.transformPoint2
                          ((sprites[j].src.size.1 : Rat), 0)).1,
                       (sprites[j].transform.transformPoint2
                          ((sprites[j].src.size.1 : Rat), 0)).2, 0),
          tex_coords := ((sprites[j].src.right : Rat), (sprites[j].src.top : Rat)),
          tint := normTint sprites[j].tint },
        { position := ((sprites[j].transform.transformPoint2
                          ((sprites[j].src.size.1 : Rat), (sprites[j].src.size.2 : Rat))).1,
                       (sprites[j].transform.transformPoint2
                          ((sprites[j].src.size.1 : Rat), (sprites[j].src.size.2 : Rat))).2, 0),
          tex_coords := ((sprites[j].src.right : Rat), (sprites[j].src.bottom : Rat)),
          tint := normTint sprites[j].tint } ] ∧
    (out.indices.drop (6 * j)).take 6 =
      [0, 1, 2, 1, 2, 3].map (fun v => (v + (4 * j) % U32) % U32) := by
  obtain ⟨hvlen, hilen⟩ := prepare_lengths r dev sprites out ha hp
  obtain ⟨pgs, hEq, -, -, -⟩ := prepare_eq r dev sprites ha
  rw [hp] at hEq
  obtain rfl := Option.some.inj hEq
  refine ⟨hvlen, hilen, ?_, ?_⟩
  · have hblock := flatten_blocks_get 4 (sprites.map quadVertices) j
      (by intro b hb; obtain ⟨s, -, rfl⟩ := List.mem_map.mp hb; exact quadVertices_length s)
      (by simpa using hj)
    simp only at hblock ⊢
    rw [hblock, List.getElem_map]
    rfl
  · have hblock := flatten_blocks_get 6
      ((List.range sprites.length).map (fun j => quadIndices (4 * j))) j
      (by intro b hb; obtain ⟨i, -, rfl⟩ := List.mem_map.mp hb; exact quadIndices_length _)
      (by simpa using hj)
    simp only at hblock ⊢
    rw [hblock, List.getElem_map, List.getElem_range]
    rfl

theorem spright_C2_witness :
    ((Renderer.new dev32).prepare dev32 [mkSprite texA]).map
        (fun out => (out.vertices, out.indices)) =
      some ([ { position := (0, 0, 0), tex_coords := (0, 0), tint := (1, 1, 1, 1) },
              { position := (0, 20, 0), tex_coords := (0, 20), tint := (1, 1, 1, 1) },
              { position := (10, 0, 0), tex_coords := (10, 0), tint := (1, 1, 1, 1) },
              { position := (10, 20, 0), tex_coords := (10, 20), tint := (1, 1, 1, 1) } ],
            [0, 1, 2, 1, 2, 3]) := by
  cases hq : (Renderer.new dev32).prepare dev32 [mkSprite texA] with
  | none => exact absurd hq (by decide)
  | some out =>
    obtain ⟨h1, h2, h3, h4⟩ :=
      spright_C2 (Renderer.new dev32) dev32 [mkSprite texA] out 0 (by decide) (by decide) hq
    rw [show (4 * 0 : Nat) = 0 from rfl, List.drop_zero] at h3
    rw [show (6 * 0 : Nat) = 0 from rfl, List.drop_zero] at h4
    rw [List.take_of_length_le (by rw [h1]; decide)] at h3
    rw [List.take_of_length_le (by rw [h2]; decide)] at h4
    simp only [Option.map_some']
    rw [h3, h4]
    simp only [List.getElem_cons_zero]
    norm_num [mkSprite, texA, identityAffine, Affine2.transformPoint2,
      Rect.left, Rect.top, Rect.right, Rect.bottom, normTint, U32]

/-- C2 counterexample: in a batch of `2^30 + 1` sprites, the last sprite's
6 indices are `[0,1,2,1,2,3]` — the global running vertex count at that
point is `4 * 2^30 = 2^32`, which the `as u32` cast wraps to 0 — not the
claimed `{0,1,2,1,2,3}` offset by the (unreduced) running vertex count. -/
theorem spright_C2_cex :
    (((Renderer.new dev256).prepare dev256
        (List.replicate (2 ^ 30 + 1) (mkSprite texA))).map
      (fun out => (out.indices.drop (6 * 2 ^ 30)).take 6)) = some [0, 1, 2, 1, 2, 3] ∧
    ([0, 1, 2, 1, 2, 3] : List Nat) ≠
      [0, 1, 2, 1, 2, 3].map (fun v => v + 4 * 2 ^ 30) := by
  obtain ⟨out, hq, hidx, -, -, -⟩ := prepare_replicate (2 ^ 30 + 1) (by decide)
  refine ⟨?_, by decide⟩
  rw [hq]
  simp only [Option.map_some']
  rw [hidx]
  have hblock := flatten_blocks_get 6
    ((List.range (2 ^ 30 + 1)).map (fun j => quadIndices (4 * j))) (2 ^ 30)
    (by intro b hb; obtain ⟨i, -, rfl⟩ := List.mem_map.mp hb; exact quadIndices_length _)
    (by simp)
  rw [hblock, List.getElem_map, List.getElem_range]
  decide

theorem prepare_group_count (r : Renderer) (dev : DeviceLimits) (sprites : List Sprite)
    (out : PrepareResult) (ha : dev.min_uniform_buffer_offset_alignment ≠ 0)
    (hp : r.prepare dev sprites = some out) (t : Texture) (hne : sprites ≠ [])
    (ht : ∀ s ∈ sprites, s.texture = t) :
    out.renderer.prepared_groups.length = 1 ∧
    out.renderer.prepared_groups.map (fun p => (p.index_buffer_start, p.index_buffer_end))
      = [(0, (6 * sprites.length) % U32)] := by
  obtain ⟨pgs, hEq, hLen, hChain, hGet⟩ := prepare_eq r dev sprites ha
  rw [hp] at hEq
  obtain rfl := Option.some.inj hEq
  have hch : chunkByKey (fun s => s.texture.id) sprites = [sprites] :=
    chunkByKey_const _ t.id sprites hne (fun x hx => by rw [ht x hx])
  rw [hch] at hLen hGet
  simp only at hLen ⊢
  refine ⟨by simpa using hLen, ?_⟩
  match pgs, hLen with
  | [pg], _ =>
    obtain ⟨-, -, h3, h4, -⟩ := hGet 0 (by simp) (by simp)
    simp only [List.getElem_cons_zero] at h3 h4
    simp only [List.map_cons, List.map_nil, h3, h4]
    simp

/-- C3 (amended): provided the total index count `6·n` is below `2^32`
(so the `as u32` casts do not wrap), the recorded index ranges of the
prepared groups, concatenated in group order, reconstruct
`0..total_index_count` with no gaps and no overlaps; and for `N ≥ 1`
sprites all referencing one texture, prepare yields exactly one group
whose index range is `[0, 6N)` while `4N` vertices are synthesized. -/
theorem spright_C3 (r : Renderer) (dev : DeviceLimits) (sprites : List Sprite)
    (out : PrepareResult) (ha : dev.min_uniform_buffer_offset_alignment ≠ 0)
    (hp : r.prepare dev sprites = some out) (hfit : 6 * sprites.length < U32) :
    (out.indices.length = 6 * sprites.length ∧
     chainFrom 0 (out.renderer.prepared_groups.map
       (fun p => (p.index_buffer_start, p.index_buffer_end))) out.indices.length ∧
     ∀ p ∈ out.renderer.prepared_groups.map
       (fun p => (p.index_buffer_start, p.index_buffer_end)), p.1 ≤ p.2) ∧
    (∀ t : Texture, sprites ≠ [] → (∀ s ∈ sprites, s.texture = t) →
      out.renderer.prepared_groups.length = 1 ∧
      out.renderer.prepared_groups.map
        (fun p => (p.index_buffer_start, p.index_buffer_end)) = [(0, 6 * sprites.length)] ∧
      out.vertices.length = 4 * sprites.length) := by
  obtain ⟨hvlen, hilen⟩ := prepare_lengths r dev sprites out ha hp
  refine ⟨⟨hilen, ?_, ?_⟩, ?_⟩
  · obtain ⟨pgs, hEq, hLen, hChain, hGet⟩ := prepare_eq r dev sprites ha
    rw [hp] at hEq
    obtain rfl := Option.some.inj hEq
    rw [Nat.mod_eq_of_lt hfit] at hChain
    simpa only [hilen] using hChain
  · obtain ⟨pgs, hEq, hLen, hChain, hGet⟩ := prepare_eq r dev sprites ha
    rw [hp] at hEq
    obtain rfl := Option.some.inj hEq
    intro p hp'
    simp only at hp'
    obtain ⟨pg, hpg, rfl⟩ := List.mem_map.mp hp'
    obtain ⟨i, hi, rfl⟩ := List.mem_iff_getElem.mp hpg
    obtain ⟨-, -, h3, h4, -⟩ := hGet i (hLen ▸ hi) hi
    rw [h3, h4]
    have hmono := (take_flatten_le (chunkByKey (fun s => s.texture.id) sprites) i).1
    have hb1 := (take_flatten_le (chunkByKey (fun s => s.texture.id) sprites) i).2
    have hb2 := (take_flatten_le (chunkByKey (fun s => s.texture.id) sprites) (i + 1)).2
    rw [chunkByKey_flatten] at hb1 hb2
    rw [Nat.mod_eq_of_lt (by omega), Nat.mod_eq_of_lt (by omega)]
    omega
  · intro t hne ht
    obtain ⟨hcount, hranges⟩ := prepare_group_count r dev sprites out ha hp t hne ht
    rw [Nat.mod_eq_of_lt hfit] at hranges
    exact ⟨hcount, hranges, hvlen⟩

theorem spright_C3_witness :
    ((Renderer.new dev32).prepare dev32 [mkSprite texA, mkSprite texA]).map
        (fun out => (out.renderer.prepared_groups.map
            (fun p => (p.index_buffer_start, p.index_buffer_end)), out.vertices.length))
      = some ([(0, 12)], 8) := by
  cases hq : (Renderer.new dev32).prepare dev32 [mkSprite texA, mkSprite texA] with
  | none => exact absurd hq (by decide)
  | some out =>
    obtain ⟨-, h⟩ := spright_C3 (Renderer.new dev32) dev32 [mkSprite texA, mkSprite texA]
      out (by decide) hq (by decide)
    obtain ⟨-, hranges, hvlen⟩ := h texA (by decide) (by decide)
    simp only [Option.map_some']
    rw [hranges, hvlen]
    decide

/-- C3 counterexample: for `2^30` sprites of one texture the total index
count is `6 * 2^30 > 2^32`; the recorded (u32-cast) range is `[0, 2^31)`,
which neither reconstructs `0..total_index_count` nor has length `6N` —
and for the empty list, zero groups (not one) are produced. -/
theorem spright_C3_cex :
    (((Renderer.new dev256).prepare dev256 (List.replicate (2 ^ 30) (mkSprite texA))).map
        (fun out => (out.renderer.prepared_groups.map
            (fun p => (p.index_buffer_start, p.index_buffer_end)), out.indices.length))
      = some ([(0, 2 ^ 31)], 6 * 2 ^ 30)) ∧
    ¬ chainFrom 0 [(0, 2 ^ 31)] (6 * 2 ^ 30) ∧
    (2 ^ 31 : Nat) ≠ 6 * 2 ^ 30 ∧
    ((Renderer.new dev256).prepare dev256 ([] : List Sprite)).map
        (fun out => out.renderer.prepared_groups.length) = some 0 := by
  obtain ⟨out, hq, -, -, hilen, hranges⟩ := prepare_replicate (2 ^ 30) (by decide)
  refine ⟨?_, by decide, by decide, by rw [prepare_nil]; rfl⟩
  rw [hq]
  simp only [Option.map_some']
  rw [hranges, hilen]
  decide

/-- C7 (amended): `prepare` performs no index-count check and reports no
error — with any nonzero alignment it succeeds on every sprite list, the
synthesized index count is the unchecked `6·n`, and the recorded range
endpoints chain from 0 to `6·n` reduced modulo `2^32`: counts past `2^32`
silently wrap in the `as u32` casts. -/
theorem spright_C7 (r : Renderer) (dev : DeviceLimits) (sprites : List Sprite)
    (ha : dev.min_uniform_buffer_offset_alignment ≠ 0) :
    ∃ out, r.prepare dev sprites = some out ∧
      out.indices.length = 6 * sprites.length ∧
      chainFrom 0 (out.renderer.prepared_groups.map
        (fun p => (p.index_buffer_start, p.index_buffer_end)))
        ((6 * sprites.length) % U32) := by
  obtain ⟨pgs, hEq, hLen, hChain, hGet⟩ := prepare_eq r dev sprites ha
  obtain ⟨-, hilen⟩ := prepare_lengths r dev sprites _ ha hEq
  exact ⟨_, hEq, hilen, hChain⟩

theorem spright_C7_witness :
    ((Renderer.new dev32).prepare dev32 [mkSprite texA, mkSprite texB]).isSome = true := by
  obtain ⟨out, hq, -, -⟩ :=
    spright_C7 (Renderer.new dev32) dev32 [mkSprite texA, mkSprite texB] (by decide)
  rw [hq]
  rfl

/-- C7 counterexample: a batch of `2^30` sprites would synthesize
`6 * 2^30 > 2^32` indices, yet `prepare` succeeds with no error and
records the wrapped endpoint `2^31 = 6 * 2^30 mod 2^32` instead. -/
theorem spright_C7_cex :
    ((Renderer.new dev256).prepare dev256
        (List.replicate (2 ^ 30) (mkSprite texA))).isSome = true ∧
    (2 ^ 32 : Nat) < 6 * (List.replicate (2 ^ 30) (mkSprite texA)).length ∧
    ((Renderer.new dev256).prepare dev256 (List.replicate (2 ^ 30) (mkSprite texA))).map
        (fun out => out.renderer.prepared_groups.map
          (fun p => (p.index_buffer_start, p.index_buffer_end))) = some [(0, 2 ^ 31)] ∧
    (2 ^ 31 : Nat) ≠ (6 * 2 ^ 30 : Nat) := by
  obtain ⟨out, hq, -, -, -, hranges⟩ := prepare_replicate (2 ^ 30) (by decide)
  refine ⟨by rw [hq]; rfl, by simp only [List.length_replicate]; decide, ?_, by decide⟩
  rw [hq]
  simp only [Option.map_some']
  rw [hranges]
  decide
